import Mathlib

/-
Shallow embedding of `src/main.rs` from the usbmon repository.

The program waits for USB devices (given as vid:pid pairs) to attach or
detach.  We embed:

  * the `Error` enum and `DeviceID` struct;
  * `parse_device` together with the semantics of Rust's
    `u16::from_str_radix(_, 16)` and `str::split(":")`;
  * `DeviceID`'s `Display` impl (`"{:x}:{:x}"`, lowercase unpadded hex);
  * `is_connected`, including the `.unwrap()` panics it can perform when
    `device_descriptor()` fails for an enumerated entry;
  * the pre-loop part of `main` (initial presence check, fast path,
    `nowait` handling), and the event-driven wait loop, modelled as a
    function over the finite sequence of hotplug events received on the
    mpsc channel, one event per loop iteration, each paired with the
    device snapshot that `ctx.devices()` returns in that iteration.

Rust `u16` values are modelled as `Nat` with explicit `< 65536` bounds
where they matter; fallible calls (`rusb::Result`) are `Except`; a panic
from `.unwrap()` is an `Except.error Panicked.unwrapFailed` outcome.
-/

set_option autoImplicit false

deriving instance DecidableEq for Except

namespace Usbmon

/-- Opaque stand-in for `rusb::Error`; only `NoDevice` is distinguished
by the program (returned in `nowait` mode). -/
inductive RusbError where
  | noDevice
  | ioError
  | accessError
  deriving DecidableEq, Repr

/-- Result of a `.unwrap()` panic inside embedded code. -/
inductive Panicked where
  | unwrapFailed
  deriving DecidableEq, Repr

/-- The fields of `rusb::DeviceDescriptor` the program reads:
`vendor_id()` and `product_id()`, both `u16`. -/
structure Descriptor where
  vid : Nat
  pid : Nat
  deriving DecidableEq, Repr

/-- An enumerated `rusb::Device`: the only operation the program performs
on it is `device_descriptor()`, which may fail.  In this deterministic
embedding each device carries its fixed descriptor-retrieval result. -/
structure Dev where
  descriptor : Except RusbError Descriptor
  deriving DecidableEq, Repr

/-- The `Error` enum of `main.rs` (parse errors).  Token payloads are
kept as `List Char` (Rust `String`). -/
inductive Error where
  | MissingSeparator
  | InvalidVID (s : List Char)
  | InvalidPID (s : List Char)
  deriving DecidableEq, Repr

/-- The `DeviceID` struct: `vid: u16, pid: u16` (bounds carried as
hypotheses where needed). -/
structure DeviceID where
  vid : Nat
  pid : Nat
  deriving DecidableEq, Repr

/-- Semantics of Rust `str::split(":")` on a character list: splits at
every `':'`; always yields at least one (possibly empty) field. -/
def splitColon : List Char → List (List Char)
  | [] => [[]]
  | c :: rest =>
    if c = ':' then [] :: splitColon rest
    else
      match splitColon rest with
      | [] => [[c]]
      | f :: fs => (c :: f) :: fs

/-- Value of one hexadecimal digit, case-insensitive, as in Rust
`char::to_digit(16)` used by `from_str_radix`. -/
def hexDigitVal (c : Char) : Option Nat :=
  if '0' ≤ c ∧ c ≤ '9' then some (c.toNat - 48)
  else if 'a' ≤ c ∧ c ≤ 'f' then some (c.toNat - 87)
  else if 'A' ≤ c ∧ c ≤ 'F' then some (c.toNat - 55)
  else none

/-- Digit-accumulation loop of `from_str_radix` in exact `Nat`
arithmetic (Rust's per-step checked arithmetic in `u16` fails exactly
when this exact value leaves `[0, 2^16)`, checked by the caller). -/
def parseHexAux : List Char → Nat → Option Nat
  | [], acc => some acc
  | c :: rest, acc =>
    match hexDigitVal c with
    | none => none
    | some d => parseHexAux rest (16 * acc + d)

/-- Semantics of Rust `u16::from_str_radix(s, 16)`: an optional leading
`+` sign (a `-` sign is only stripped for signed types, so for `u16` it
is always an invalid digit), then a non-empty run of hex digits; the
value must fit in `u16`.  `none` stands for any `ParseIntError` (empty
input, lone sign, invalid digit, overflow alike). -/
def from_str_radix16 (s : List Char) : Option Nat :=
  match s with
  | [] => none
  | c :: rest =>
    if c = '+' then
      if rest = [] then none
      else (parseHexAux rest 0).bind (fun v => if v < 65536 then some v else none)
    else
      (parseHexAux s 0).bind (fun v => if v < 65536 then some v else none)

/-- Numeric value denoted by a big-endian string of hex digits (used to
state what `parse_device` returns on valid input). -/
def hexValue (s : List Char) : Nat :=
  s.foldl (fun a c => 16 * a + (hexDigitVal c).getD 0) 0

/-- Embedding of `parse_device`: split on `':'`, require at least two
fields, interpret field 0 as the VID and field 1 as the PID with
`u16::from_str_radix(_, 16)`; extra fields are ignored. -/
def parse_device (arg : List Char) : Except Error DeviceID :=
  match splitColon arg with
  | v0 :: v1 :: _ =>
    match from_str_radix16 v0 with
    | none => .error (.InvalidVID v0)
    | some vid =>
      match from_str_radix16 v1 with
      | none => .error (.InvalidPID v1)
      | some pid => .ok ⟨vid, pid⟩
  | _ => .error .MissingSeparator

/-- The predicate of the inner `ids.iter().find(..).is_some()` in
`is_connected`: the descriptor equals the target id on both fields. -/
def matchesDesc (desc : Descriptor) (id : DeviceID) : Bool :=
  desc.vid == id.vid && desc.pid == id.pid

/-- Scan of `devices.iter().find(..)` in `is_connected`: for each device
in snapshot order, `device_descriptor().unwrap()` (panic on failure),
then test membership in `ids`; on the first match the source re-reads
the same descriptor (which succeeds, having succeeded once) and returns
its vid/pid as a `DeviceID`. -/
def find_match (ids : List DeviceID) : List Dev → Except Panicked (Option DeviceID)
  | [] => .ok none
  | d :: rest =>
    match d.descriptor with
    | .error _ => .error .unwrapFailed
    | .ok desc =>
      if ids.any (fun id => matchesDesc desc id) then
        .ok (some ⟨desc.vid, desc.pid⟩)
      else find_match ids rest

/-- Embedding of `is_connected`: an `Err` enumeration result yields
`None`; otherwise scan the snapshot.  The outer `Except Panicked` layer
records the `.unwrap()` panic on a failing per-device descriptor. -/
def is_connected (devices : Except RusbError (List Dev)) (ids : List DeviceID) :
    Except Panicked (Option DeviceID) :=
  match devices with
  | .error _ => .ok none
  | .ok devs => find_match ids devs

/-- Specification-side predicate naming which snapshot entries count as
matches: the descriptor was retrieved and equals some target id.  Used
to state that `is_connected` returns the first matching entry. -/
def devMatches (ids : List DeviceID) (d : Dev) : Bool :=
  match d.descriptor with
  | .ok desc => ids.any (fun id => matchesDesc desc id)
  | .error _ => false

/-- Lowercase hex digit character, as produced by Rust's `{:x}`. -/
def hexChar (d : Nat) : Char :=
  if d < 10 then Char.ofNat (48 + d) else Char.ofNat (87 + d)

/-- Little-endian lowercase hex digits of `n` (empty for `0`). -/
def toHexRev (n : Nat) : List Char :=
  if h : n = 0 then []
  else hexChar (n % 16) :: toHexRev (n / 16)
  termination_by n
  decreasing_by exact Nat.div_lt_self (Nat.pos_of_ne_zero h) (by decide)

/-- Rust `{:x}` formatting of a number: minimal-width lowercase hex. -/
def displayHex (n : Nat) : List Char :=
  if n = 0 then ['0'] else (toHexRev n).reverse

/-- The `Display` impl of `DeviceID`: `write!(f, "{:x}:{:x}", vid, pid)`. -/
def displayDeviceID (id : DeviceID) : List Char :=
  displayHex id.vid ++ ':' :: displayHex id.pid

/-- Outcome of the part of `main` before the wait loop (after the
initial `is_connected` check on `rusb::devices()`). -/
inductive PreOutcome where
  /-- Fast path, predicate already true with a match: prints the matched
  id on stdout and returns `Ok(())` before any registration. -/
  | printed (id : DeviceID)
  /-- Fast path, predicate already true with no match (detach mode):
  prints nothing and returns `Ok(())` before any registration. -/
  | silent
  /-- `args.nowait` set and predicate false: returns
  `Err(rusb::Error::NoDevice)` before any registration. -/
  | noDevice
  /-- Falls through to the hotplug-registration / wait-loop code. -/
  | proceed
  /-- The initial `is_connected` call panicked on `.unwrap()`. -/
  | panicked
  deriving DecidableEq, Repr

/-- Embedding of `main` up to (not including) the wait loop.  In the
source `attach = !args.detach` and the test is
`connected.is_some() ^ !attach`, i.e. `connected.is_some() ^ detach`. -/
def main_pre (detach nowait : Bool) (snapshot : Except RusbError (List Dev))
    (ids : List DeviceID) : PreOutcome :=
  match is_connected snapshot ids with
  | .error _ => .panicked
  | .ok connected =>
    if xor connected.isSome detach then
      match connected with
      | some id => .printed id
      | none => .silent
    else if nowait then .noDevice
    else .proceed

/-- One iteration's inputs in the event-driven wait loop: the device
received from the mpsc channel (`rx.recv()`), and the snapshot that
`ctx.devices()` returns in that iteration. -/
structure EventStep where
  dev : Dev
  snapshot : Except RusbError (List Dev)
  deriving DecidableEq, Repr

/-- Observable actions of the wait loop (stderr diagnostics are gated on
`verbose` and non-contractual; we record the unregister call and the
stdout print). -/
inductive Action where
  /-- The `ctx.unregister_callback(reg)` call. -/
  | unregister
  /-- The `println!("{:x}:{:x}", ..)` on stdout. -/
  | print (vid pid : Nat)
  deriving DecidableEq, Repr

/-- How a run of the wait loop over a finite event sequence ends. -/
inductive LoopOutcome where
  /-- The loop hit `break` and `main` returns `Ok(())`. -/
  | success
  /-- Some `.unwrap()` in the loop body panicked. -/
  | panicked
  /-- The event sequence was exhausted with the loop still waiting. -/
  | stillWaiting
  deriving DecidableEq, Repr

/-- Embedding of the `loop { .. }` in `main`: `reg` is the
`Option<Registration>` slot (`reg.take()` moves the handle out, so the
recursive call in the satisfied-but-already-taken branch continues with
`none`).  Per iteration: receive one event, `device_descriptor().unwrap()`
on it, re-run `is_connected` on a fresh snapshot, and on
`connected.is_some() ^ detach` take the handle, unregister, print the
event descriptor's vid/pid, and break. -/
def event_loop (detach : Bool) (ids : List DeviceID) (reg : Option Nat) :
    List EventStep → LoopOutcome × List Action
  | [] => (.stillWaiting, [])
  | e :: rest =>
    match e.dev.descriptor with
    | .error _ => (.panicked, [])
    | .ok desc =>
      match is_connected e.snapshot ids with
      | .error _ => (.panicked, [])
      | .ok connected =>
        if xor connected.isSome detach then
          match reg with
          | some _ => (.success, [.unregister, .print desc.vid desc.pid])
          | none => event_loop detach ids none rest
        else
          event_loop detach ids reg rest

/-- A string with no colon splits to itself as the single field. -/
theorem splitColon_eq_self (v : List Char) (hv : ':' ∉ v) : splitColon v = [v] := by
  induction v with
  | nil => rfl
  | cons c cs ih =>
    have hc : c ≠ ':' := fun h => hv (by simp [h])
    have hcs : ':' ∉ cs := fun h => hv (List.mem_cons_of_mem _ h)
    simp only [splitColon, if_neg hc, ih hcs]

/-- Splitting peels off a colon-free field before a `':'`. -/
theorem splitColon_append (v rest : List Char) (hv : ':' ∉ v) :
    splitColon (v ++ ':' :: rest) = v :: splitColon rest := by
  induction v with
  | nil => simp [splitColon]
  | cons c cs ih =>
    have hc : c ≠ ':' := fun h => hv (by simp [h])
    have hcs : ':' ∉ cs := fun h => hv (List.mem_cons_of_mem _ h)
    simp only [List.cons_append, splitColon, if_neg hc, List.append_eq, ih hcs]

/-- On a run of valid hex digits the digit loop computes the folded value. -/
theorem parseHexAux_valid (l : List Char) (a : Nat)
    (h : ∀ c ∈ l, (hexDigitVal c).isSome) :
    parseHexAux l a = some (l.foldl (fun a c => 16 * a + (hexDigitVal c).getD 0) a) := by
  induction l generalizing a with
  | nil => rfl
  | cons c cs ih =>
    have hc := h c (List.mem_cons_self c cs)
    cases hv : hexDigitVal c with
    | none => rw [hv] at hc; simp at hc
    | some d =>
      simp only [parseHexAux, hv, List.foldl_cons, Option.getD_some]
      exact ih _ (fun x hx => h x (List.mem_cons_of_mem _ hx))

/-- A valid hex digit is not a colon (so hex tokens survive the split). -/
theorem isSome_hexDigitVal_ne_colon {c : Char} (h : (hexDigitVal c).isSome) : c ≠ ':' := by
  intro e
  rw [e] at h
  exact (by decide : ¬ (hexDigitVal ':').isSome) h

/-- On a non-empty run of valid hex digits, `from_str_radix16` succeeds
exactly when the denoted value fits in 16 bits, returning that value. -/
theorem from_str_radix16_valid (l : List Char) (hne : l ≠ [])
    (h : ∀ c ∈ l, (hexDigitVal c).isSome) :
    from_str_radix16 l = if hexValue l < 65536 then some (hexValue l) else none := by
  cases l with
  | nil => exact absurd rfl hne
  | cons c rest =>
    have hc : (hexDigitVal c).isSome := h c (List.mem_cons_self _ _)
    have hplus : c ≠ '+' := by
      intro e; rw [e] at hc; exact (by decide : ¬ (hexDigitVal '+').isSome) hc
    simp only [from_str_radix16, if_neg hplus]
    rw [parseHexAux_valid _ _ h]
    rfl

/-- C4: for every pair of hexadecimal tokens `v` and `p` (non-empty runs
of case-insensitive hex digits) denoting values in `[0, 0xFFFF]`,
`parse_device` on `"v:p"` succeeds with `DeviceID ⟨hex v, hex p⟩`, and
any extra colon-separated fields after the second are ignored. -/
theorem parse_device_valid_hex (v p extra : List Char)
    (hvne : v ≠ []) (hv : ∀ c ∈ v, (hexDigitVal c).isSome) (hvlt : hexValue v < 65536)
    (hpne : p ≠ []) (hp : ∀ c ∈ p, (hexDigitVal c).isSome) (hplt : hexValue p < 65536) :
    parse_device (v ++ ':' :: p) = .ok ⟨hexValue v, hexValue p⟩ ∧
    parse_device (v ++ ':' :: (p ++ ':' :: extra)) = .ok ⟨hexValue v, hexValue p⟩ := by
  have hvcolon : ':' ∉ v := fun hm => isSome_hexDigitVal_ne_colon (hv _ hm) rfl
  have hpcolon : ':' ∉ p := fun hm => isSome_hexDigitVal_ne_colon (hp _ hm) rfl
  have hfv : from_str_radix16 v = some (hexValue v) := by
    rw [from_str_radix16_valid v hvne hv, if_pos hvlt]
  have hfp : from_str_radix16 p = some (hexValue p) := by
    rw [from_str_radix16_valid p hpne hp, if_pos hplt]
  constructor
  · unfold parse_device
    rw [splitColon_append v p hvcolon, splitColon_eq_self p hpcolon]
    simp only [hfv, hfp]
  · unfold parse_device
    rw [splitColon_append v _ hvcolon, splitColon_append p extra hpcolon]
    simp only [hfv, hfp]

/-- Witness for C4 at the concrete tokens `"a"` and `"F"`. -/
theorem parse_device_valid_hex_witness :
    hexValue ['a'] = 10 ∧ hexValue ['F'] = 15 ∧
    parse_device ['a', ':', 'F'] = .ok ⟨hexValue ['a'], hexValue ['F']⟩ ∧
    parse_device ['a', ':', 'F', ':', 'z'] = .ok ⟨hexValue ['a'], hexValue ['F']⟩ :=
  ⟨by decide, by decide,
    (parse_device_valid_hex ['a'] ['F'] ['z'] (by decide) (by decide) (by decide)
      (by decide) (by decide) (by decide)).1,
    (parse_device_valid_hex ['a'] ['F'] ['z'] (by decide) (by decide) (by decide)
      (by decide) (by decide) (by decide)).2⟩

/-- C5: `parse_device` fails with `MissingSeparator` exactly when the
split yields fewer than two fields; otherwise a first field rejected by
`u16::from_str_radix(_, 16)` (invalid characters and overflow alike)
gives `InvalidVID` carrying that field, and else a rejected second field
gives `InvalidPID` carrying that field. -/
theorem parse_device_two_fields (s v0 v1 : List Char) (rest : List (List Char))
    (h : splitColon s = v0 :: v1 :: rest) :
    parse_device s =
      match from_str_radix16 v0 with
      | none => .error (.InvalidVID v0)
      | some vid =>
        match from_str_radix16 v1 with
        | none => .error (.InvalidPID v1)
        | some pid => .ok ⟨vid, pid⟩ := by
  unfold parse_device
  rw [h]

theorem parse_device_errors (s : List Char) :
    (parse_device s = .error .MissingSeparator ↔ (splitColon s).length < 2) ∧
    (∀ v0 v1 rest, splitColon s = v0 :: v1 :: rest →
      (from_str_radix16 v0 = none → parse_device s = .error (.InvalidVID v0)) ∧
      (∀ n, from_str_radix16 v0 = some n → from_str_radix16 v1 = none →
        parse_device s = .error (.InvalidPID v1))) := by
  rcases h : splitColon s with _ | ⟨v0, _ | ⟨v1, rest⟩⟩
  · constructor
    · unfold parse_device; rw [h]; simp
    · intro a b c heq; simp at heq
  · constructor
    · unfold parse_device; rw [h]; simp
    · intro a b c heq; simp at heq
  · rw [parse_device_two_fields s v0 v1 rest h]
    constructor
    · constructor
      · intro hms
        exfalso
        cases h0 : from_str_radix16 v0 with
        | none => rw [h0] at hms; simp at hms
        | some n =>
          cases h1 : from_str_radix16 v1 with
          | none => rw [h0, h1] at hms; simp at hms
          | some m => rw [h0, h1] at hms; simp at hms
      · intro hlen; simp at hlen; exact absurd hlen (by omega)
    · intro a b c heq
      injection heq with h1 h2
      injection h2 with h2 h3
      subst h1; subst h2
      constructor
      · intro h0; rw [h0]
      · intro n h0 h1; rw [h0, h1]

/-- Witness for C5: a non-hex first field is reported as `InvalidVID`
carrying the offending token `"zz"`. -/
theorem parse_device_errors_witness :
    parse_device ['z', 'z', ':', '1'] = .error (.InvalidVID ['z', 'z']) :=
  ((parse_device_errors ['z', 'z', ':', '1']).2 ['z', 'z'] ['1'] [] (by decide)).1 (by decide)

/-- Hex digit characters round-trip through `hexDigitVal`. -/
theorem hexDigitVal_hexChar (d : Nat) (hd : d < 16) : hexDigitVal (hexChar d) = some d := by
  interval_cases d <;> decide

/-- Every character `toHexRev` emits is a valid hex digit. -/
theorem mem_toHexRev_isSome (n : Nat) : ∀ c ∈ toHexRev n, (hexDigitVal c).isSome := by
  induction n using Nat.strong_induction_on with
  | _ n ih =>
    by_cases hn : n = 0
    · subst hn; intro c hc; rw [toHexRev] at hc; simp at hc
    · rw [toHexRev, dif_neg hn]
      intro c hc
      rcases List.mem_cons.mp hc with h | h
      · rw [h, hexDigitVal_hexChar (n % 16) (Nat.mod_lt _ (by decide))]; rfl
      · exact ih (n / 16) (Nat.div_lt_self (Nat.pos_of_ne_zero hn) (by decide)) c h

/-- Value computed by the hex fold over the big-endian digits of `n`. -/
theorem foldl_toHexRev (n : Nat) : ∀ a : Nat,
    ((toHexRev n).reverse).foldl (fun a c => 16 * a + (hexDigitVal c).getD 0) a
      = a * 16 ^ (toHexRev n).length + n := by
  induction n using Nat.strong_induction_on with
  | _ n ih =>
    intro a
    by_cases hn : n = 0
    · subst hn; rw [toHexRev]; simp
    · rw [toHexRev, dif_neg hn]
      rw [List.reverse_cons, List.foldl_append]
      rw [ih (n / 16) (Nat.div_lt_self (Nat.pos_of_ne_zero hn) (by decide)) a]
      simp only [List.foldl_cons, List.foldl_nil, List.length_cons,
        hexDigitVal_hexChar (n % 16) (Nat.mod_lt _ (by decide)), Option.getD_some]
      calc 16 * (a * 16 ^ (toHexRev (n / 16)).length + n / 16) + n % 16
          = a * (16 ^ (toHexRev (n / 16)).length * 16) + (16 * (n / 16) + n % 16) := by ring
        _ = a * 16 ^ ((toHexRev (n / 16)).length + 1) + n := by
            rw [pow_succ, Nat.div_add_mod]

/-- Formatting with `{:x}` always yields at least one character. -/
theorem displayHex_ne_nil (n : Nat) : displayHex n ≠ [] := by
  unfold displayHex
  by_cases hn : n = 0
  · simp [hn]
  · rw [if_neg hn]
    intro h
    have : toHexRev n = [] := by simpa using congrArg List.reverse h
    rw [toHexRev] at this
    simp [hn] at this

/-- Every character of a `{:x}` rendering is a valid hex digit. -/
theorem mem_displayHex_isSome (n : Nat) : ∀ c ∈ displayHex n, (hexDigitVal c).isSome := by
  unfold displayHex
  by_cases hn : n = 0
  · rw [if_pos hn]; intro c hc; simp at hc; rw [hc]; decide
  · rw [if_neg hn]
    intro c hc
    exact mem_toHexRev_isSome n c (List.mem_reverse.mp hc)

/-- Parsing back a `{:x}` rendering recovers the number. -/
theorem hexValue_displayHex (n : Nat) : hexValue (displayHex n) = n := by
  unfold displayHex
  by_cases hn : n = 0
  · rw [if_pos hn, hn]; decide
  · rw [if_neg hn]
    unfold hexValue
    rw [foldl_toHexRev n 0]
    simp

/-- C10: formatting a `DeviceID` with its `Display` impl (lowercase
unpadded hex `vid:pid`) and parsing the result with `parse_device`
returns a structurally equal `DeviceID` (both fields are `u16`). -/
theorem display_parse_roundtrip (id : DeviceID) (hv : id.vid < 65536) (hp : id.pid < 65536) :
    parse_device (displayDeviceID id) = .ok id := by
  have hvc : ':' ∉ displayHex id.vid :=
    fun hm => isSome_hexDigitVal_ne_colon (mem_displayHex_isSome _ _ hm) rfl
  have hpc : ':' ∉ displayHex id.pid :=
    fun hm => isSome_hexDigitVal_ne_colon (mem_displayHex_isSome _ _ hm) rfl
  have hfv : from_str_radix16 (displayHex id.vid) = some id.vid := by
    rw [from_str_radix16_valid _ (displayHex_ne_nil _) (mem_displayHex_isSome _),
      hexValue_displayHex, if_pos hv]
  have hfp : from_str_radix16 (displayHex id.pid) = some id.pid := by
    rw [from_str_radix16_valid _ (displayHex_ne_nil _) (mem_displayHex_isSome _),
      hexValue_displayHex, if_pos hp]
  unfold displayDeviceID parse_device
  rw [splitColon_append _ _ hvc, splitColon_eq_self _ hpc]
  simp only [hfv, hfp]

/-- Witness for C10 at the concrete id `ab:12` (vid 171, pid 18). -/
theorem display_parse_roundtrip_witness :
    parse_device (displayDeviceID ⟨171, 18⟩) = .ok ⟨171, 18⟩ :=
  display_parse_roundtrip ⟨171, 18⟩ (by decide) (by decide)

/-- C6: when the enumeration itself failed (`rusb::devices()` returned
`Err`), `is_connected` returns `None` instead of propagating the
error, for every target set. -/
theorem is_connected_enum_error (e : RusbError) (ids : List DeviceID) :
    is_connected (.error e) ids = .ok none := rfl

/-- Counterexample to C1: the snapshot holds an entry whose descriptor
retrieval fails followed by an entry matching the single target; the
claim predicts the bad entry is skipped and the match `1:2` returned,
but `is_connected` panics on the `.unwrap()` and aborts the check. -/
theorem is_connected_no_skip_cex :
    is_connected (.ok [⟨.error .ioError⟩, ⟨.ok ⟨1, 2⟩⟩]) [⟨1, 2⟩] = .error .unwrapFailed ∧
    is_connected (.ok [⟨.error .ioError⟩, ⟨.ok ⟨1, 2⟩⟩]) [⟨1, 2⟩] ≠ .ok (some ⟨1, 2⟩) := by
  decide

/-- C1 amended: if descriptor retrieval fails for an entry reached by
the scan (every earlier entry readable and non-matching), the whole
presence check panics via `.unwrap()` instead of skipping the entry. -/
theorem is_connected_descriptor_panic (ids : List DeviceID) (pre : List Dev) (d : Dev)
    (rest : List Dev) (err : RusbError)
    (hpre : ∀ x ∈ pre, ∃ desc, x.descriptor = .ok desc ∧
      ids.any (fun id => matchesDesc desc id) = false)
    (hd : d.descriptor = .error err) :
    is_connected (.ok (pre ++ d :: rest)) ids = .error .unwrapFailed := by
  induction pre with
  | nil =>
    show find_match ids (d :: rest) = .error .unwrapFailed
    unfold find_match
    rw [hd]
  | cons x xs ih =>
    obtain ⟨desc, hx, hany⟩ := hpre x (List.mem_cons_self _ _)
    show find_match ids (x :: (xs ++ d :: rest)) = .error .unwrapFailed
    unfold find_match
    simp only [hx, hany, Bool.false_eq_true, if_false]
    exact ih (fun y hy => hpre y (List.mem_cons_of_mem _ hy))

/-- Witness for the amended C1: one clean non-matching entry precedes
the entry with the failing descriptor. -/
theorem is_connected_descriptor_panic_witness :
    is_connected (.ok [⟨.ok ⟨9, 9⟩⟩, ⟨.error .accessError⟩, ⟨.ok ⟨1, 2⟩⟩]) [⟨1, 2⟩]
      = .error .unwrapFailed :=
  is_connected_descriptor_panic [⟨1, 2⟩] [⟨.ok ⟨9, 9⟩⟩] ⟨.error .accessError⟩
    [⟨.ok ⟨1, 2⟩⟩] .accessError
    (by
      intro x hx
      rw [List.mem_singleton] at hx
      subst hx
      exact ⟨⟨9, 9⟩, rfl, by decide⟩)
    rfl

/-- A permutation of a list leaves `List.any` unchanged. -/
theorem any_perm {α : Type} (f : α → Bool) {l1 l2 : List α} (h : l1.Perm l2) :
    l1.any f = l2.any f := by
  induction h with
  | nil => rfl
  | cons x _ ih => simp [List.any_cons, ih]
  | swap x y l =>
    simp only [List.any_cons]
    cases f x <;> cases f y <;> simp
  | trans _ _ ih1 ih2 => rw [ih1, ih2]

/-- Counterexample to C9: with an empty target list the claim predicts
`None` for every snapshot, but a snapshot whose only entry has a
failing descriptor still panics (the descriptor is unwrapped before the
target test). -/
theorem is_connected_empty_targets_cex :
    is_connected (.ok [⟨.error .ioError⟩]) [] = .error .unwrapFailed ∧
    is_connected (.ok [⟨.error .ioError⟩]) [] ≠ .ok none := by
  decide

/-- C9 amended: `is_connected` is order-independent in the target list
(permutations give identical results, panics included); whenever it
returns `Some r`, `r` is the descriptor of the first matching snapshot
entry in enumeration order; with an empty target list it never returns
`Some`, and it returns `None` provided every enumerated entry's
descriptor is readable (otherwise the scan panics). -/
theorem is_connected_targets :
    (∀ (snap : Except RusbError (List Dev)) (ids1 ids2 : List DeviceID), ids1.Perm ids2 →
      is_connected snap ids1 = is_connected snap ids2) ∧
    (∀ (devs : List Dev) (ids : List DeviceID) (r : DeviceID),
      is_connected (.ok devs) ids = .ok (some r) →
      ∃ d, devs.find? (devMatches ids) = some d ∧ d.descriptor = .ok ⟨r.vid, r.pid⟩) ∧
    (∀ (snap : Except RusbError (List Dev)) (r : DeviceID),
      is_connected snap [] ≠ .ok (some r)) ∧
    (∀ devs : List Dev, (∀ d ∈ devs, d.descriptor.isOk) →
      is_connected (.ok devs) [] = .ok none) := by
  have hfind : ∀ (devs : List Dev) (ids1 ids2 : List DeviceID), ids1.Perm ids2 →
      find_match ids1 devs = find_match ids2 devs := by
    intro devs ids1 ids2 hperm
    induction devs with
    | nil => rfl
    | cons d rest ih =>
      unfold find_match
      cases hdesc : d.descriptor with
      | error e => rfl
      | ok desc =>
        simp only [any_perm (fun id => matchesDesc desc id) hperm, ih]
  refine ⟨?_, ?_, ?_, ?_⟩
  · intro snap ids1 ids2 hperm
    cases snap with
    | error e => rfl
    | ok devs => exact hfind devs ids1 ids2 hperm
  · intro devs ids r h
    induction devs with
    | nil => simp [is_connected, find_match] at h
    | cons d rest ih =>
      rw [show is_connected (.ok (d :: rest)) ids = find_match ids (d :: rest) from rfl] at h
      unfold find_match at h
      cases hdesc : d.descriptor with
      | error e => rw [hdesc] at h; simp at h
      | ok desc =>
        simp only [hdesc] at h
        by_cases hany : (ids.any fun id => matchesDesc desc id) = true
        · rw [if_pos hany] at h
          refine ⟨d, ?_, ?_⟩
          · rw [List.find?_cons_of_pos _ (by simp [devMatches, hdesc, hany])]
          · injection h with h
            injection h with h
            rw [hdesc, ← h]
        · rw [if_neg hany] at h
          obtain ⟨d2, hfind2, hdesc2⟩ := ih h
          refine ⟨d2, ?_, hdesc2⟩
          rw [List.find?_cons_of_neg _ (by simp [devMatches, hdesc, hany]), hfind2]
  · intro snap r h
    cases snap with
    | error e => simp [is_connected] at h
    | ok devs =>
      induction devs with
      | nil => simp [is_connected, find_match] at h
      | cons d rest ih =>
        rw [show is_connected (.ok (d :: rest)) [] = find_match [] (d :: rest) from rfl] at h
        unfold find_match at h
        cases hdesc : d.descriptor with
        | error e => rw [hdesc] at h; simp at h
        | ok desc => rw [hdesc] at h; simp at h; exact ih h
  · intro devs hok
    induction devs with
    | nil => rfl
    | cons d rest ih =>
      show find_match [] (d :: rest) = .ok none
      unfold find_match
      cases hdesc : d.descriptor with
      | error e =>
        exact absurd (hok d (List.mem_cons_self _ _))
          (by rw [hdesc]; simp [Except.isOk, Except.toBool])
      | ok desc =>
        simp only [List.any_nil, Bool.false_eq_true, if_false]
        exact ih (fun x hx => hok x (List.mem_cons_of_mem _ hx))

/-- Witness for C9 at concrete inputs: a swapped target pair gives the
same result, a returned match is the first matching entry, and with no
targets a readable snapshot yields `None`. -/
theorem is_connected_targets_witness :
    (is_connected (.ok [Dev.mk (.ok ⟨1, 2⟩)]) [⟨1, 2⟩, ⟨3, 4⟩]
      = is_connected (.ok [Dev.mk (.ok ⟨1, 2⟩)]) [⟨3, 4⟩, ⟨1, 2⟩]) ∧
    (∃ d, [Dev.mk (.ok ⟨3, 4⟩), Dev.mk (.ok ⟨1, 2⟩)].find? (devMatches [⟨1, 2⟩]) = some d ∧
      d.descriptor = .ok ⟨1, 2⟩) ∧
    is_connected (.ok [Dev.mk (.ok ⟨1, 2⟩)]) [] = .ok none :=
  ⟨is_connected_targets.1 (Except.ok [Dev.mk (.ok ⟨1, 2⟩)])
      ([DeviceID.mk 1 2, DeviceID.mk 3 4]) ([DeviceID.mk 3 4, DeviceID.mk 1 2])
      (List.Perm.swap (DeviceID.mk 3 4) (DeviceID.mk 1 2) []),
    is_connected_targets.2.1 ([Dev.mk (.ok ⟨3, 4⟩), Dev.mk (.ok ⟨1, 2⟩)]) [⟨1, 2⟩]
      (DeviceID.mk 1 2) (by decide),
    is_connected_targets.2.2.2 ([Dev.mk (.ok ⟨1, 2⟩)])
      (by intro d hd; rw [List.mem_singleton] at hd; subst hd; rfl)⟩

/-- C3: if the initial presence check completes with `c` and the success
predicate `c.isSome XOR detach` holds, `main` takes the fast path: it
prints the matched id when `c = some id`, prints nothing when
`c = none`, and returns `Ok(())` without ever reaching the registration
code (the outcome is `printed`/`silent`, never `proceed`). -/
theorem main_pre_fast_path (detach nowait : Bool) (snap : Except RusbError (List Dev))
    (ids : List DeviceID) (c : Option DeviceID)
    (hc : is_connected snap ids = .ok c) (hpred : xor c.isSome detach = true) :
    main_pre detach nowait snap ids =
      match c with
      | some id => PreOutcome.printed id
      | none => PreOutcome.silent := by
  unfold main_pre
  simp only [hc]
  rw [if_pos hpred]
  cases c <;> rfl

/-- Witness for C3: target `1:2` already attached in attach mode. -/
theorem main_pre_fast_path_witness :
    main_pre false false (.ok [Dev.mk (.ok ⟨1, 2⟩)]) [⟨1, 2⟩] = .printed ⟨1, 2⟩ :=
  main_pre_fast_path false false (.ok [Dev.mk (.ok ⟨1, 2⟩)]) [⟨1, 2⟩]
    (some ⟨1, 2⟩) (by decide) (by decide)

/-- C8: if the initial presence check completes with the success
predicate false and `nowait` was requested, `main` returns
`Err(rusb::Error::NoDevice)` without ever reaching the registration
code (the outcome is `noDevice`, never `proceed`). -/
theorem main_pre_nowait_no_device (detach : Bool) (snap : Except RusbError (List Dev))
    (ids : List DeviceID) (c : Option DeviceID)
    (hc : is_connected snap ids = .ok c) (hpred : xor c.isSome detach = false) :
    main_pre detach true snap ids = .noDevice := by
  unfold main_pre
  simp only [hc]
  rw [if_neg (by rw [hpred]; exact Bool.false_ne_true)]
  simp

/-- Witness for C8: target absent in attach mode with `nowait` set. -/
theorem main_pre_nowait_no_device_witness :
    main_pre false true (.ok []) [⟨1, 2⟩] = .noDevice :=
  main_pre_nowait_no_device false (.ok []) [⟨1, 2⟩] none (by decide) (by decide)

/-- C7: every run of the event loop that terminates successfully emits
exactly one `unregister` action — never zero, never two — and it
precedes the single print; the handle slot is an `Option` consumed by
`reg.take()`, so the whole action trace is exactly
`[unregister, print v p]`. -/
theorem event_loop_unregister_once (detach : Bool) (ids : List DeviceID) (h : Nat)
    (es : List EventStep) (tr : List Action)
    (hrun : event_loop detach ids (some h) es = (.success, tr)) :
    (∃ v p, tr = [Action.unregister, Action.print v p]) ∧
    tr.count Action.unregister = 1 := by
  induction es with
  | nil => exact absurd hrun (by simp [event_loop])
  | cons e rest ih =>
    unfold event_loop at hrun
    cases hdesc : e.dev.descriptor with
    | error err => rw [hdesc] at hrun; simp at hrun
    | ok desc =>
      simp only [hdesc] at hrun
      cases hconn : is_connected e.snapshot ids with
      | error p => rw [hconn] at hrun; simp at hrun
      | ok c =>
        simp only [hconn] at hrun
        by_cases hpred : (xor c.isSome detach) = true
        · rw [if_pos hpred] at hrun
          injection hrun with h1 h2
          subst h2
          exact ⟨⟨desc.vid, desc.pid, rfl⟩, rfl⟩
        · rw [if_neg hpred] at hrun
          exact ih hrun

/-- Witness for C7: one attach event satisfies the predicate; the trace
holds exactly one unregister, before the print. -/
theorem event_loop_unregister_once_witness :
    (∃ v p, [Action.unregister, Action.print 5 6] = [Action.unregister, Action.print v p]) ∧
    List.count Action.unregister [Action.unregister, Action.print 5 6] = 1 :=
  event_loop_unregister_once false [⟨1, 2⟩] 0
    [EventStep.mk (Dev.mk (.ok ⟨5, 6⟩)) (.ok [Dev.mk (.ok ⟨1, 2⟩)])]
    [Action.unregister, Action.print 5 6] (by decide)

/-- Counterexample to C2: in attach mode (`detach = false`) an event
from device `5:6` arrives while the fresh snapshot's first matching
entry is `1:2`; the presence check returns the matched id `1:2`, yet
the loop prints `5:6` — the triggering event's descriptor — not the
matched identifier. -/
theorem event_loop_print_cex :
    event_loop false [⟨1, 2⟩] (some 0)
        [EventStep.mk (Dev.mk (.ok ⟨5, 6⟩)) (.ok [Dev.mk (.ok ⟨1, 2⟩)])]
      = (.success, [.unregister, .print 5 6]) ∧
    is_connected (.ok [Dev.mk (.ok ⟨1, 2⟩)]) [⟨1, 2⟩] = .ok (some ⟨1, 2⟩) ∧
    Action.print 5 6 ≠ Action.print 1 2 := by
  decide

/-- C2 amended: whenever the event loop terminates successfully, the
identifier printed on stdout is taken from the triggering event's
descriptor — in the attach case just as in the detach case — not from
the identifier returned by the presence check. -/
theorem event_loop_prints_event_descriptor (detach : Bool) (ids : List DeviceID) (h : Nat)
    (es : List EventStep) (tr : List Action)
    (hrun : event_loop detach ids (some h) es = (.success, tr)) :
    ∃ e ∈ es, ∃ desc c, e.dev.descriptor = .ok desc ∧
      is_connected e.snapshot ids = .ok c ∧ xor c.isSome detach = true ∧
      tr = [Action.unregister, Action.print desc.vid desc.pid] := by
  induction es with
  | nil => exact absurd hrun (by simp [event_loop])
  | cons e rest ih =>
    unfold event_loop at hrun
    cases hdesc : e.dev.descriptor with
    | error err => rw [hdesc] at hrun; simp at hrun
    | ok desc =>
      simp only [hdesc] at hrun
      cases hconn : is_connected e.snapshot ids with
      | error p => rw [hconn] at hrun; simp at hrun
      | ok c =>
        simp only [hconn] at hrun
        by_cases hpred : (xor c.isSome detach) = true
        · rw [if_pos hpred] at hrun
          injection hrun with h1 h2
          exact ⟨e, List.mem_cons_self _ _, desc, c, hdesc, hconn, hpred, h2.symm⟩
        · rw [if_neg hpred] at hrun
          obtain ⟨e2, hmem, hrest⟩ := ih hrun
          exact ⟨e2, List.mem_cons_of_mem _ hmem, hrest⟩

/-- Witness for the amended C2: the detach-mode run that empties the
snapshot prints the departing event's descriptor. -/
theorem event_loop_prints_event_descriptor_witness :
    ∃ e ∈ [EventStep.mk (Dev.mk (.ok ⟨7, 8⟩)) (.ok [])],
      ∃ desc c, e.dev.descriptor = .ok desc ∧
        is_connected e.snapshot [⟨7, 8⟩] = .ok c ∧ xor c.isSome true = true ∧
        [Action.unregister, Action.print 7 8]
          = [Action.unregister, Action.print desc.vid desc.pid] :=
  event_loop_prints_event_descriptor true [⟨7, 8⟩] 0
    [EventStep.mk (Dev.mk (.ok ⟨7, 8⟩)) (.ok [])]
    [Action.unregister, Action.print 7 8] (by decide)

end Usbmon
